import Mathlib

/-!
# s3tagging: a shallow embedding of `main.go`

The program lists every object of a bucket, keeps the keys a regular
expression matches, writes them to `tagging-objects.csv` and tags each of them.

Conventions of the embedding.

* A Go `string` is its byte sequence, `List UInt8`; `go "env=prod"` is the
  UTF-8 encoding of a literal.
* A non-nil Go `error` is a `GoError`; a nilable `error` is `Option GoError`,
  a nilable pointer is an `Option`, a nil slice is the empty list.  A function
  returning `(x, err)` returns a pair.
* The outside world (S3, the file system, the configuration loader) is a
  deterministic state machine `World σ`; every call threads the state `σ`.
  The `regexp` package is a parameter `RegexpLib`.
* Every function returns, next to its Go results, the list of observable
  events it produced, in program order (`Trace`).  Log attributes are dropped,
  log messages are kept.
* The listing loop of `main` is a `for` without bound; it takes fuel and
  answers `none` when the fuel runs out.
-/

namespace S3Tagging

/-! ## Strings, errors, library types -/

/-- A Go string: an immutable sequence of bytes. -/
abbrev GoString := List UInt8

/-- UTF-8 bytes of a literal. -/
def go (s : String) : GoString := s.toList.flatMap String.utf8EncodeChar

/-- A non-nil Go `error`. -/
structure GoError where
  msg : String
  deriving DecidableEq, Repr

/-- Element type `types.Tag`; `Key` and `Value` point to strings. -/
structure Tag where
  Key : GoString
  Value : GoString
  deriving DecidableEq, Repr

/-- The fields of `s3.ListObjectsV2Input` the program sets. -/
structure ListObjectsV2Input where
  Bucket : GoString
  MaxKeys : Nat
  ContinuationToken : Option GoString
  deriving DecidableEq, Repr

/-- One element of `output.Contents`; only `Key` is read. -/
structure Object where
  Key : GoString
  deriving DecidableEq, Repr

/-- The fields of `s3.ListObjectsV2Output` the program reads. -/
structure ListObjectsV2Output where
  Contents : List Object
  NextContinuationToken : Option GoString
  deriving DecidableEq, Repr

/-- The fields of `s3.PutObjectTaggingInput` the program sets. -/
structure PutObjectTaggingInput where
  Bucket : GoString
  Key : GoString
  TagSet : List Tag
  deriving DecidableEq, Repr

/-- Observable events. -/
inductive Event where
  | slogError (msg : String)
  | slogInfo (msg : String)
  | LoadDefaultConfig
  | ListObjectsV2 (input : ListObjectsV2Input)
  | Create (name : GoString)
  | Write (name : GoString) (b : GoString)
  | PutObjectTagging (input : PutObjectTaggingInput)
  | Sleep (nanoseconds : Nat)
  deriving DecidableEq, Repr

/-- Events in program order. -/
abbrev Trace := List Event

/-- The collaborators with state: AWS configuration, the S3 client, the file system. -/
structure World (σ : Type) where
  LoadDefaultConfig : σ → Option GoError × σ
  ListObjectsV2 : ListObjectsV2Input → σ → Except GoError ListObjectsV2Output × σ
  Create : GoString → σ → Option GoError × σ
  Write : GoString → GoString → σ → (Nat × Option GoError) × σ
  PutObjectTagging : PutObjectTaggingInput → σ → Option GoError × σ

/-- The package `regexp`: `regexp.Compile` and `(*Regexp).MatchString`. -/
structure RegexpLib where
  Regexp : Type
  Compile : GoString → Except GoError Regexp
  MatchString : Regexp → GoString → Bool

/-- Byte of the comma. -/
def comma : UInt8 := 44

/-- Byte of the equals sign. -/
def equals : UInt8 := 61

/-- Line feed, the string "\n". -/
def newline : GoString := [10]

/-- The scan of `strings.Split`: `piece` holds the bytes read since the last
separator; a separator closes the piece, the end of the string closes the last one. -/
def splitFrom (sep : UInt8) : GoString → GoString → List GoString
  | [], piece => [piece]
  | c :: s, piece =>
    if c = sep then piece :: splitFrom sep s [] else splitFrom sep s (piece ++ [c])

/-- `strings.Split(s, sep)` for a separator of one byte, the only way the
program calls it: the pieces of `s` between the occurrences of `sep`; a string
without `sep`, the empty one included, is one piece. -/
def Split (s : GoString) (sep : UInt8) : List GoString := splitFrom sep s []

/-! ## The functions of `main.go` -/

/-- Type `ListObjectsResponse`; `Keys` points to a local slice and is never nil. -/
structure ListObjectsResponse where
  Keys : List GoString
  NextToken : Option GoString
  deriving DecidableEq, Repr

/-- Function `s3ListObjects`. -/
def s3ListObjects {σ : Type} (w : World σ) (bucket : GoString) (continueToken : Option GoString)
    (s : σ) : (Option ListObjectsResponse × Option GoError) × σ × Trace :=
  let input : ListObjectsV2Input :=
    { Bucket := bucket, MaxKeys := 1000, ContinuationToken := continueToken }
  match w.ListObjectsV2 input s with
  | (.error err, s1) =>
    ((none, some err), s1, [.ListObjectsV2 input, .slogError "ListObjectV2エラー"])
  | (.ok output, s1) =>
    let returnData := output.Contents.foldl (fun acc c => acc ++ [c.Key]) []
    ((some { Keys := returnData, NextToken := output.NextContinuationToken }, none), s1,
      [.ListObjectsV2 input])

/-- Function `extractionOldFormat`; `main` passes `&allObjects`, never nil. -/
def extractionOldFormat (R : RegexpLib) (s3Objects : List GoString) (sRegex : GoString) :
    (Option (List GoString) × Option GoError) × Trace :=
  match R.Compile sRegex with
  | .error err => ((none, some err), [.slogError "正規表現コンパイルエラー"])
  | .ok re =>
    let oldFormatObjects :=
      s3Objects.foldl (fun acc d => if R.MatchString re d then acc ++ [d] else acc) []
    ((some oldFormatObjects, none), [])

/-- How a call ends: it returns, or it dereferences a nil pointer. -/
inductive Outcome (α : Type) where
  | ret (a : α)
  | nilDeref
  deriving DecidableEq, Repr

/-- Function `outputTaggingObjects`; `s3Objects` is nil when `extractionOldFormat` failed. -/
def outputTaggingObjects {σ : Type} (w : World σ) (s3Objects : Option (List GoString))
    (fileName : GoString) (s : σ) : Outcome (Option GoError) × σ × Trace :=
  match w.Create fileName s with
  | (some err, s1) => (.ret (some err), s1, [.Create fileName, .slogError "ファイル作成エラー"])
  | (none, s1) =>
    match s3Objects with
    | none => (.nilDeref, s1, [.Create fileName])
    | some objs =>
      let writestr := objs.foldl (fun acc d => acc ++ (d ++ newline)) []
      match w.Write fileName writestr s1 with
      | ((_, some err), s2) =>
        (.ret (some err), s2,
          [.Create fileName, .Write fileName writestr, .slogError "ファイル書き込みエラー"])
      | ((count, none), s2) =>
        (.ret none, s2,
          [.Create fileName, .Write fileName writestr,
            .slogInfo ("write" ++ toString count ++ "bytes")])

/-- Function `s3PutTagging`. -/
def s3PutTagging {σ : Type} (w : World σ) (bucket key : GoString) (tags : List Tag) (s : σ) :
    Option GoError × σ × Trace :=
  let input : PutObjectTaggingInput := { Bucket := bucket, Key := key, TagSet := tags }
  match w.PutObjectTagging input s with
  | (some err, s1) => (some err, s1, [.PutObjectTagging input, .slogError "PutObjectTaggingエラー"])
  | (none, s1) => (none, s1, [.PutObjectTagging input, .slogInfo "タグ付与完了"])

/-- The error `errors.New("tag option error")`. -/
def tagOptionError : GoError := ⟨"tag option error"⟩

/-- The `for _, t := range strTags` loop of `generateTags`, `tags` being the slice built so far. -/
def generateTagsLoop : List GoString → List Tag → (List Tag × Option GoError) × Trace
  | [], tags => ((tags, none), [])
  | t :: strTags, tags =>
    let keyval := Split t equals
    if h : keyval.length ≠ 2 then
      (([], some tagOptionError), [.slogError "Tagのオプション引数が無効です"])
    else
      generateTagsLoop strTags
        (tags ++ [{ Key := keyval[0], Value := keyval[1] }])

/-- Function `generateTags`. -/
def generateTags (commandTags : GoString) : (List Tag × Option GoError) × Trace :=
  generateTagsLoop (Split commandTags comma) []

/-- How the listing loop of `main` ends: `break` with the keys gathered, or `main` returns. -/
inductive ListExit where
  | broke (allObjects : List GoString)
  | returned
  | nilDeref
  deriving DecidableEq, Repr

/-- The listing loop of `main`, a `for` without condition, from the values
`token` and `allObjects` have when an iteration starts. -/
def listLoop {σ : Type} (w : World σ) (bucket : GoString) :
    Nat → Option GoString → List GoString → σ → Option (ListExit × σ × Trace)
  | 0, _, _, _ => none
  | fuel + 1, token, allObjects, s =>
    match s3ListObjects w bucket token s with
    | ((_, some _), s1, t1) =>
      some (.returned, s1, t1 ++ [.slogError "ListObjectsでエラー発生のため処理終了"])
    | ((none, none), s1, t1) => some (.nilDeref, s1, t1)
    | ((some resp, none), s1, t1) =>
      match resp.NextToken with
      | none => some (.broke (allObjects ++ resp.Keys), s1, t1)
      | some c =>
        match listLoop w bucket fuel (some c) (allObjects ++ resp.Keys) s1 with
        | none => none
        | some (r, s2, t2) => some (r, s2, t1 ++ t2)

/-- The duration `1 * time.Second`, in nanoseconds. -/
def second : Nat := 1000000000

/-- The tagging loop of `main` over the remaining keys; the answer is `true`
when the loop ran to its end and `false` when `main` returned from inside it. -/
def tagLoop {σ : Type} (w : World σ) (bucket : GoString) (tags : List Tag) :
    List GoString → σ → Bool × σ × Trace
  | [], s => (true, s, [])
  | o :: rest, s =>
    match s3PutTagging w bucket o tags s with
    | (some _, s1, t1) => (false, s1, t1 ++ [.slogError "タグ付与失敗のため処理終了"])
    | (none, s1, t1) =>
      match tagLoop w bucket tags rest s1 with
      | (r, s2, t2) => (r, s2, t1 ++ .Sleep (1 * second) :: t2)

/-- How `main` ends. -/
inductive Exit where
  | returned
  | nilDeref
  deriving DecidableEq, Repr

/-- The name of the report file. -/
def reportName : GoString := go "tagging-objects.csv"

/-- Function `main`, from the values of the flags `bucket`, `regex` and `tags`
after `flag.Parse`. -/
def main {σ : Type} (w : World σ) (R : RegexpLib) (fuel : Nat) (bucket regex tags : GoString)
    (s : σ) : Option (Exit × σ × Trace) :=
  if [bucket, regex, tags].any (fun d => d.length == 0) then
    some (.returned, s, [.slogError "コマンド引数エラー。bucket, regex, tagsの引数が必須です"])
  else
    match generateTags tags with
    | ((_, some _), t0) => some (.returned, s, t0 ++ [.slogError "タグパースエラー"])
    | ((tagSet, none), t0) =>
      match w.LoadDefaultConfig s with
      | (some _, s1) =>
        some (.returned, s1, t0 ++ [.LoadDefaultConfig, .slogError "AWSの configロードエラー"])
      | (none, s1) =>
        match listLoop w bucket fuel none [] s1 with
        | none => none
        | some (.returned, s2, t2) => some (.returned, s2, t0 ++ .LoadDefaultConfig :: t2)
        | some (.nilDeref, s2, t2) => some (.nilDeref, s2, t0 ++ .LoadDefaultConfig :: t2)
        | some (.broke allObjects, s2, t2) =>
          let t3 : Trace := [.slogInfo "S3オブジェクト一覧の取得終了"]
          match extractionOldFormat R allObjects regex with
          | ((taggingObjects, _), t4) =>
            match outputTaggingObjects w taggingObjects reportName s2 with
            | (.nilDeref, s5, t5) =>
              some (.nilDeref, s5, t0 ++ .LoadDefaultConfig :: t2 ++ t3 ++ t4 ++ t5)
            | (.ret _, s5, t5) =>
              match taggingObjects with
              | none => some (.nilDeref, s5, t0 ++ .LoadDefaultConfig :: t2 ++ t3 ++ t4 ++ t5)
              | some objs =>
                match tagLoop w bucket tagSet objs s5 with
                | (false, s6, t6) =>
                  some (.returned, s6, t0 ++ .LoadDefaultConfig :: t2 ++ t3 ++ t4 ++ t5 ++ t6)
                | (true, s6, t6) =>
                  some (.returned, s6,
                    t0 ++ .LoadDefaultConfig :: t2 ++ t3 ++ t4 ++ t5 ++ t6 ++
                      [.slogInfo "タグ付け完了しました"])

/-! ## Reading a trace -/

/-- The tagging calls of a trace, in order. -/
def putCalls (t : Trace) : List PutObjectTaggingInput :=
  t.filterMap fun
    | .PutObjectTagging input => some input
    | _ => none

/-- The listing calls of a trace, in order. -/
def listCalls (t : Trace) : List ListObjectsV2Input :=
  t.filterMap fun
    | .ListObjectsV2 input => some input
    | _ => none

/-- The byte strings written to files in a trace, in order. -/
def writes (t : Trace) : List GoString :=
  t.filterMap fun
    | .Write _ b => some b
    | _ => none

/-- Log lines are the events that touch neither the network nor the file system. -/
def Event.isLog : Event → Bool
  | .slogError _ => true
  | .slogInfo _ => true
  | _ => false

/-! ## `generateTags` -/

/-- An entry is well formed when `=` splits it into exactly two components. -/
def WellFormed (entry : GoString) : Prop := (Split entry equals).length = 2

instance (entry : GoString) : Decidable (WellFormed entry) := by
  unfold WellFormed; infer_instance

/-- The tag `t` is made of the two components of `entry`. -/
def TagOf (entry : GoString) (t : Tag) : Prop := Split entry equals = [t.Key, t.Value]

/-! ## The backend seen from the specification -/

/-- The listing input `s3ListObjects` builds for a cursor. -/
def listInput (bucket : GoString) (token : Option GoString) : ListObjectsV2Input :=
  { Bucket := bucket, MaxKeys := 1000, ContinuationToken := token }

/-- The keys of one page. -/
def pageKeys (page : ListObjectsV2Output) : List GoString := page.Contents.map (fun c => c.Key)

/-- Asked for `bucket` from state `s`, first with cursor `token` and then each
time with the cursor of the page before, the backend answers the pages `pages`
without an error, every page but the last carries a next cursor, the last one
carries none, and the backend is left in state `s'`. -/
def ServesPages {σ : Type} (w : World σ) (bucket : GoString) :
    σ → Option GoString → List ListObjectsV2Output → σ → Prop
  | _, _, [], _ => False
  | s, token, [page], s' =>
    w.ListObjectsV2 (listInput bucket token) s = (.ok page, s') ∧
      page.NextContinuationToken = none
  | s, token, page :: next :: pages, s' =>
    (w.ListObjectsV2 (listInput bucket token) s).1 = .ok page ∧
      page.NextContinuationToken ≠ none ∧
      ServesPages w bucket (w.ListObjectsV2 (listInput bucket token) s).2
        page.NextContinuationToken (next :: pages) s'

/-- The cursors of the successive listing calls for the pages `pages`, the
first call being made with `token`. -/
def cursors (token : Option GoString) (pages : List ListObjectsV2Output) :
    List (Option GoString) :=
  token :: pages.dropLast.map (fun page => page.NextContinuationToken)

/-- The tagging input `s3PutTagging` builds for a key. -/
def putInput (bucket : GoString) (tags : List Tag) (key : GoString) : PutObjectTaggingInput :=
  { Bucket := bucket, Key := key, TagSet := tags }

/-- From state `s` the backend accepts the tagging calls for `keys`, in order,
and is left in state `s'`. -/
def TagsAll {σ : Type} (w : World σ) (bucket : GoString) (tags : List Tag) :
    σ → List GoString → σ → Prop
  | s, [], s' => s' = s
  | s, key :: keys, s' =>
    (w.PutObjectTagging (putInput bucket tags key) s).1 = none ∧
      TagsAll w bucket tags (w.PutObjectTagging (putInput bucket tags key) s).2 keys s'

/-- The events of one successful tagging call followed by the pause. -/
def taggedEvents (bucket : GoString) (tags : List Tag) (key : GoString) : Trace :=
  [.PutObjectTagging (putInput bucket tags key), .slogInfo "タグ付与完了", .Sleep second]

/-- The events of a failed tagging call. -/
def failedEvents (bucket : GoString) (tags : List Tag) (key : GoString) : Trace :=
  [.PutObjectTagging (putInput bucket tags key), .slogError "PutObjectTaggingエラー",
    .slogError "タグ付与失敗のため処理終了"]

/-- The number of objects a trace reports as tagged. -/
def taggedCount (t : Trace) : Nat := t.count (.slogInfo "タグ付与完了")

/-- The content of the report for the keys `keys`: every key followed by a line feed. -/
def reportContent (keys : List GoString) : GoString := keys.flatMap (fun key => key ++ newline)

/-! ## Concrete collaborators for the scenarios -/

/-- A regular-expression engine for the patterns made of an optional leading
`^` and bytes that stand for themselves, on which it follows `regexp`: with
`^` the literal must start the key, without it the literal may occur anywhere.
Patterns with an opening parenthesis are rejected, as `regexp` rejects `(`. -/
def literalEngine : RegexpLib where
  Regexp := Bool × GoString
  Compile := fun p =>
    if (40 : UInt8) ∈ p then .error ⟨"error parsing regexp: missing closing )"⟩
    else
      match p with
      | 94 :: lit => .ok (true, lit)
      | lit => .ok (false, lit)
  MatchString := fun re key =>
    if re.1 then re.2.isPrefixOf key else key.tails.any (fun rest => re.2.isPrefixOf rest)

/-- The three keys of the scenarios. -/
def scenarioKeys : List GoString := [go "a/1.txt", go "a/2.txt", go "b/1.txt"]

/-- A backend over a counter of tagging calls: one page with the three keys,
tagging call number `failAt` (from 0) fails, the report file can be created
unless `createFails`. -/
def scenarioWorld (createFails : Bool) (failAt : Option Nat) : World Nat where
  LoadDefaultConfig := fun n => (none, n)
  ListObjectsV2 := fun _ n =>
    (.ok { Contents := scenarioKeys.map Object.mk, NextContinuationToken := none }, n)
  Create := fun _ n => (if createFails then some ⟨"permission denied"⟩ else none, n)
  Write := fun _ b n => ((b.length, none), n)
  PutObjectTagging := fun _ n =>
    (if failAt = some n then some ⟨"AccessDenied"⟩ else none, n + 1)

/-- The first page of the paging scenario: 1000 keys and the cursor `C1`. -/
def page1 : ListObjectsV2Output :=
  { Contents := (List.range 1000).map (fun i => Object.mk (go "p1/" ++ [UInt8.ofNat (i / 256), UInt8.ofNat i])),
    NextContinuationToken := some (go "C1") }

/-- The second page of the paging scenario: 400 keys and no cursor. -/
def page2 : ListObjectsV2Output :=
  { Contents := (List.range 400).map (fun i => Object.mk (go "p2/" ++ [UInt8.ofNat (i / 256), UInt8.ofNat i])),
    NextContinuationToken := none }

/-- A backend over a counter of listing calls that serves `page1` to a call
without cursor, `page2` to a call with the cursor `C1`, and fails otherwise. -/
def pagedWorld : World Nat where
  LoadDefaultConfig := fun n => (none, n)
  ListObjectsV2 := fun input n =>
    match input.ContinuationToken with
    | none => (.ok page1, n + 1)
    | some c => if c = go "C1" then (.ok page2, n + 1) else (.error ⟨"InvalidArgument"⟩, n + 1)
  Create := fun _ n => (none, n)
  Write := fun _ b n => ((b.length, none), n)
  PutObjectTagging := fun _ n => (none, n)

/-! ## Theorems -/

/-! ### `strings.Split` -/

theorem splitFrom_length (sep : UInt8) (s : GoString) :
    ∀ piece, (splitFrom sep s piece).length = s.count sep + 1 := by
  induction s with
  | nil => intro piece; rfl
  | cons c s ih =>
    intro piece
    by_cases hc : c = sep
    · subst hc; simp [splitFrom, ih]
    · have hne : (c == sep) = false := by simpa using hc
      simp [splitFrom, hc, ih, List.count_cons, hne]

theorem splitFrom_join (sep : UInt8) (s : GoString) :
    ∀ piece, [sep].intercalate (splitFrom sep s piece) = piece ++ s := by
  induction s with
  | nil => intro piece; simp [splitFrom, List.intercalate]
  | cons c s ih =>
    intro piece
    by_cases hc : c = sep
    · subst hc
      have h := ih []
      cases hs : splitFrom c s [] with
      | nil =>
        have := splitFrom_length c s []
        rw [hs] at this; simp at this
      | cons p ps =>
        rw [hs] at h
        simp only [splitFrom, if_true, hs]
        simp only [List.intercalate, List.intersperse, List.flatten_cons] at h ⊢
        rw [h]; simp
    · simp [splitFrom, hc, ih]

theorem splitFrom_no_sep (sep : UInt8) (s : GoString) :
    ∀ piece, sep ∉ piece → ∀ p ∈ splitFrom sep s piece, sep ∉ p := by
  induction s with
  | nil => intro piece hp p hmem; simp [splitFrom] at hmem; subst hmem; exact hp
  | cons c s ih =>
    intro piece hp p hmem
    by_cases hc : c = sep
    · subst hc
      simp only [splitFrom, if_true, List.mem_cons] at hmem
      rcases hmem with rfl | hmem
      · exact hp
      · exact ih [] (by simp) p hmem
    · simp only [splitFrom, hc, if_false] at hmem
      refine ih (piece ++ [c]) ?_ p hmem
      simp only [List.mem_append, List.mem_singleton, not_or]
      exact ⟨hp, fun h => hc h.symm⟩

/-- The model of `strings.Split` is the one list of pieces that has one piece
more than `s` has separators, holds no separator inside a piece, and gives `s`
back when the pieces are joined with the separator. -/
theorem Split_characterised (s : GoString) (sep : UInt8) :
    (Split s sep).length = s.count sep + 1 ∧
    (∀ p ∈ Split s sep, sep ∉ p) ∧
    [sep].intercalate (Split s sep) = s := by
  refine ⟨splitFrom_length sep s [], splitFrom_no_sep sep s [] (by simp), ?_⟩
  simpa [Split] using splitFrom_join sep s []

/-! ### The tag string -/

theorem generateTagsLoop_ok (entries : List GoString) (tags : List Tag)
    (h : ∀ e ∈ entries, WellFormed e) :
    ∃ ts, generateTagsLoop entries tags = ((tags ++ ts, none), []) ∧
      List.Forall₂ TagOf entries ts := by
  induction entries generalizing tags with
  | nil => exact ⟨[], by simp [generateTagsLoop], List.Forall₂.nil⟩
  | cons e es ih =>
    have he : (Split e equals).length = 2 := h e (List.mem_cons_self _ _)
    obtain ⟨ts, hts, hall⟩ :=
      ih (tags ++ [{ Key := (Split e equals)[0], Value := (Split e equals)[1] }])
        (fun x hx => h x (List.mem_cons_of_mem _ hx))
    refine ⟨{ Key := (Split e equals)[0], Value := (Split e equals)[1] } :: ts, ?_, ?_⟩
    · simp only [generateTagsLoop, he, ne_eq, not_true_eq_false, dite_false]
      rw [hts]; simp
    · refine List.Forall₂.cons ?_ hall
      unfold TagOf
      match hs : Split e equals, he with
      | [a, b], _ => simp

theorem generateTagsLoop_err (entries : List GoString) (tags : List Tag)
    (h : ∃ e ∈ entries, ¬ WellFormed e) :
    generateTagsLoop entries tags =
      (([], some tagOptionError), [.slogError "Tagのオプション引数が無効です"]) := by
  induction entries generalizing tags with
  | nil => simp at h
  | cons e es ih =>
    by_cases he : (Split e equals).length = 2
    · simp only [generateTagsLoop, he, ne_eq, not_true_eq_false, dite_false]
      apply ih
      obtain ⟨x, hx, hbad⟩ := h
      rcases List.mem_cons.1 hx with rfl | hx
      · exact absurd he hbad
      · exact ⟨x, hx, hbad⟩
    · simp [generateTagsLoop, he]

theorem forall₂_exists_left {α β : Type} {P : α → β → Prop} {xs : List α} {ys : List β}
    (h : List.Forall₂ P xs ys) : ∀ y ∈ ys, ∃ x ∈ xs, P x y := by
  induction h with
  | nil => simp
  | cons hab _ ih =>
    intro y hy
    rcases List.mem_cons.1 hy with rfl | hy
    · exact ⟨_, List.mem_cons_self _ _, hab⟩
    · obtain ⟨x, hx, hxy⟩ := ih y hy
      exact ⟨x, List.mem_cons_of_mem _ hx, hxy⟩

/-- C2: `generateTags` fails exactly when some entry is not well formed, it
then returns the tag-format error and no tag; otherwise it returns one tag per
entry, in entry order, made of the two components of the entry.  The input
`env=prod,team` fails. -/
theorem generateTags_iff_wellFormed (s : GoString) :
    ((generateTags s).1.2 ≠ none ↔ ∃ e ∈ Split s comma, ¬ WellFormed e) ∧
    ((∃ e ∈ Split s comma, ¬ WellFormed e) →
      (generateTags s).1 = ([], some tagOptionError)) ∧
    ((∀ e ∈ Split s comma, WellFormed e) →
      (generateTags s).1.2 = none ∧
        List.Forall₂ TagOf (Split s comma) (generateTags s).1.1) ∧
    (generateTags (go "env=prod,team")).1 = ([], some tagOptionError) := by
  have hbad : (∃ e ∈ Split s comma, ¬ WellFormed e) →
      (generateTags s).1 = ([], some tagOptionError) := by
    intro h
    simp [generateTags, generateTagsLoop_err _ [] h]
  have hgood : (∀ e ∈ Split s comma, WellFormed e) →
      (generateTags s).1.2 = none ∧
        List.Forall₂ TagOf (Split s comma) (generateTags s).1.1 := by
    intro h
    obtain ⟨ts, hts, hall⟩ := generateTagsLoop_ok _ [] h
    simp only [generateTags, hts, List.nil_append]
    exact ⟨trivial, hall⟩
  refine ⟨⟨fun hne => ?_, fun h => ?_⟩, hbad, hgood, by decide⟩
  · by_contra hno
    push_neg at hno
    exact hne (hgood hno).1
  · rw [hbad h]; simp

/-- Witness of C2 at `env=prod,team=x`, whose two entries are well formed. -/
theorem generateTags_iff_wellFormed_witness :
    (∀ e ∈ Split (go "env=prod,team=x") comma, WellFormed e) ∧
    (generateTags (go "env=prod,team=x")).1 =
      ([⟨go "env", go "prod"⟩, ⟨go "team", go "x"⟩], none) ∧
    List.Forall₂ TagOf (Split (go "env=prod,team=x") comma)
      (generateTags (go "env=prod,team=x")).1.1 :=
  ⟨by decide, by decide,
    ((generateTags_iff_wellFormed (go "env=prod,team=x")).2.2.1 (by decide)).2⟩

/-- C1, as the code has it: `generateTags` either fails and returns no tag,
or returns without error exactly one tag per entry, in entry order, the tag of
an entry being made of exactly the two components `=` splits that entry into;
nothing requires a component to be non-empty. -/
theorem generateTags_all_or_nothing (s : GoString) :
    (generateTags s).1 = ([], some tagOptionError) ∨
    ((generateTags s).1.2 = none ∧
      (generateTags s).1.1.length = (Split s comma).length ∧
      List.Forall₂ TagOf (Split s comma) (generateTags s).1.1 ∧
      ∀ (i : Nat) (hi : i < (Split s comma).length) (hj : i < (generateTags s).1.1.length),
        Split ((Split s comma).get ⟨i, hi⟩) equals =
          [((generateTags s).1.1.get ⟨i, hj⟩).Key, ((generateTags s).1.1.get ⟨i, hj⟩).Value]) := by
  by_cases h : ∀ e ∈ Split s comma, WellFormed e
  · right
    obtain ⟨ts, hts, hall⟩ := generateTagsLoop_ok _ [] h
    have hgen : generateTags s = ((ts, none), []) := by simpa [generateTags] using hts
    rw [hgen]
    refine ⟨rfl, hall.length_eq.symm, hall, ?_⟩
    intro i hi hj
    exact (List.forall₂_iff_get.1 hall).2 i hi hj
  · left
    push_neg at h
    simp [generateTags, generateTagsLoop_err _ [] h]

/-- C1 as stated fails: the input `=` is accepted and yields a tag whose key
and value are both empty. -/
theorem generateTags_accepts_empty_components :
    (generateTags (go "=")).1.2 = none ∧
    ∃ t ∈ (generateTags (go "=")).1.1, t.Key = [] ∧ t.Value = [] := by
  decide

/-- C10 as stated fails: on the empty string `generateTags` returns an error. -/
theorem emptyString_not_passed_through : (generateTags (go "")).1.2 ≠ none := by
  decide

/-- C10, as the code has it: the empty string splits on the comma into one
empty entry, which `=` splits into one component, so `generateTags` fails with
the tag-format error and returns no tag; and `main` never calls it on an empty
`-tags` value, which the required-flag check rejects first. -/
theorem generateTags_emptyString_fails :
    Split [] comma = [[]] ∧ Split [] equals = [[]] ∧
    generateTags [] =
      (([], some tagOptionError), [.slogError "Tagのオプション引数が無効です"]) ∧
    ∀ (σ : Type) (w : World σ) (R : RegexpLib) (fuel : Nat) (bucket regex : GoString) (s : σ),
      main w R fuel bucket regex [] s =
        some (.returned, s,
          [.slogError "コマンド引数エラー。bucket, regex, tagsの引数が必須です"]) := by
  refine ⟨rfl, rfl, by decide, ?_⟩
  intro σ w R fuel bucket regex s
  simp [main]

/-! ### Loops that append to a slice -/

theorem foldl_append_map {α β : Type} (f : α → β) (l : List α) (init : List β) :
    l.foldl (fun acc c => acc ++ [f c]) init = init ++ l.map f := by
  induction l generalizing init with
  | nil => simp
  | cons a l ih => simp [ih]

theorem foldl_append_filter {α : Type} (p : α → Bool) (l init : List α) :
    l.foldl (fun acc d => if p d then acc ++ [d] else acc) init = init ++ l.filter p := by
  induction l generalizing init with
  | nil => simp
  | cons a l ih =>
    by_cases ha : p a <;> simp [ih, ha]

theorem foldl_append_flatMap {α β : Type} (f : α → List β) (l : List α) (init : List β) :
    l.foldl (fun acc d => acc ++ f d) init = init ++ l.flatMap f := by
  induction l generalizing init with
  | nil => simp
  | cons a l ih => simp [ih]

/-! ### The listing loop -/

theorem s3ListObjects_ok {σ : Type} (w : World σ) (bucket : GoString) (token : Option GoString)
    (s s1 : σ) (page : ListObjectsV2Output)
    (h : w.ListObjectsV2 (listInput bucket token) s = (.ok page, s1)) :
    s3ListObjects w bucket token s =
      ((some { Keys := pageKeys page, NextToken := page.NextContinuationToken }, none), s1,
        [.ListObjectsV2 (listInput bucket token)]) := by
  unfold listInput at h
  simp [s3ListObjects, h, foldl_append_map, pageKeys, listInput]

theorem listLoop_serves {σ : Type} (w : World σ) (bucket : GoString)
    (pages : List ListObjectsV2Output) :
    ∀ (fuel : Nat) (token : Option GoString) (acc : List GoString) (s s' : σ),
      ServesPages w bucket s token pages s' → pages.length ≤ fuel →
      listLoop w bucket fuel token acc s =
        some (.broke (acc ++ pages.flatMap pageKeys), s',
          (cursors token pages).map (fun c => Event.ListObjectsV2 (listInput bucket c))) := by
  induction pages with
  | nil => intro fuel token acc s s' h; exact absurd h (by simp [ServesPages])
  | cons page rest ih =>
    intro fuel token acc s s' h hfuel
    cases fuel with
    | zero => simp at hfuel
    | succ fuel =>
      cases rest with
      | nil =>
        obtain ⟨hcall, hnone⟩ := h
        simp [listLoop, s3ListObjects_ok w bucket token s s' page hcall, hnone, cursors]
      | cons next pages =>
        obtain ⟨hcall, hsome, hrest⟩ := h
        rcases hw : w.ListObjectsV2 (listInput bucket token) s with ⟨r, s1⟩
        rw [hw] at hcall hrest
        simp only at hcall hrest
        subst hcall
        obtain ⟨c, hc⟩ := Option.ne_none_iff_exists'.1 hsome
        have hlen : (next :: pages).length ≤ fuel := by
          simp only [List.length_cons] at hfuel ⊢; omega
        have hrec := ih fuel (some c) (acc ++ pageKeys page) s1 s' (hc ▸ hrest) hlen
        simp [listLoop, s3ListObjects_ok w bucket token s s1 page hw, hc, hrec, cursors,
          List.append_assoc]

theorem listCalls_map {α : Type} (f : α → ListObjectsV2Input) (l : List α) :
    listCalls (l.map (fun c => Event.ListObjectsV2 (f c))) = l.map f := by
  induction l with
  | nil => rfl
  | cons a l ih =>
    simp only [listCalls, List.map_cons, List.filterMap_cons] at ih ⊢
    rw [ih]

theorem cursors_length (token : Option GoString) (pages : List ListObjectsV2Output)
    (h : pages ≠ []) : (cursors token pages).length = pages.length := by
  cases pages with
  | nil => exact absurd rfl h
  | cons p ps => simp [cursors]

/-- C3: when the backend serves the pages `pages`, every call succeeding and
the last page being the first without a next cursor, the listing loop of `main`
ends, with any fuel of at least `pages.length`, at its `break` with the keys of
all pages concatenated in call order, after exactly one call per page: the
first without cursor, every later one with the cursor of the page before. -/
theorem listLoop_concat_pages {σ : Type} (w : World σ) (bucket : GoString)
    (pages : List ListObjectsV2Output) (fuel : Nat) (s s' : σ)
    (h : ServesPages w bucket s none pages s') (hfuel : pages.length ≤ fuel) :
    ∃ t, listLoop w bucket fuel none [] s = some (.broke (pages.flatMap pageKeys), s', t) ∧
      listCalls t = (cursors none pages).map (listInput bucket) ∧
      t.length = pages.length ∧
      (listCalls t).length = pages.length := by
  have hne : pages ≠ [] := by
    rintro rfl
    exact absurd h (by simp [ServesPages])
  refine ⟨_, by simpa using listLoop_serves w bucket pages fuel none [] s s' h hfuel, ?_, ?_, ?_⟩
  · exact listCalls_map _ _
  · simp [cursors_length none pages hne]
  · rw [listCalls_map]; simp [cursors_length none pages hne]

/-- Witness of C3: a page of 1000 keys with the cursor `C1`, then a page of 400
keys without cursor, give 1400 keys from exactly two calls, the second with `C1`. -/
theorem listLoop_concat_pages_witness :
    ServesPages pagedWorld (go "bucket") 0 none [page1, page2] 2 ∧
    ∃ keys t, listLoop pagedWorld (go "bucket") 2 none [] 0 = some (.broke keys, 2, t) ∧
      keys = pageKeys page1 ++ pageKeys page2 ∧ keys.length = 1400 ∧
      listCalls t = [listInput (go "bucket") none, listInput (go "bucket") (some (go "C1"))] := by
  have hserves : ServesPages pagedWorld (go "bucket") 0 none [page1, page2] 2 :=
    ⟨rfl, by simp [page1], rfl, rfl⟩
  obtain ⟨t, ht, hcalls, -, -⟩ :=
    listLoop_concat_pages pagedWorld (go "bucket") [page1, page2] 2 0 2 hserves (by simp)
  refine ⟨hserves, _, t, ht, by simp, ?_, ?_⟩
  · simp [pageKeys, page1, page2]
  · rw [hcalls]; simp [cursors, page1]

/-! ### Selection and report -/

theorem extractionOldFormat_ok (R : RegexpLib) (keys : List GoString) (regex : GoString)
    (re : R.Regexp) (h : R.Compile regex = .ok re) :
    extractionOldFormat R keys regex = ((some (keys.filter (R.MatchString re)), none), []) := by
  simp [extractionOldFormat, h, foldl_append_filter]

theorem extractionOldFormat_error (R : RegexpLib) (keys : List GoString) (regex : GoString)
    (err : GoError) (h : R.Compile regex = .error err) :
    extractionOldFormat R keys regex =
      ((none, some err), [.slogError "正規表現コンパイルエラー"]) := by
  simp [extractionOldFormat, h]

/-- C4: for a pattern that compiles, `extractionOldFormat` returns without
error the keys the compiled pattern matches: a subsequence of the input in the
input order, holding a key exactly when the key is in the input and matches,
as many times as the input holds it. -/
theorem extractionOldFormat_selects (R : RegexpLib) (keys : List GoString) (regex : GoString)
    (re : R.Regexp) (h : R.Compile regex = .ok re) :
    ∃ selected, extractionOldFormat R keys regex = ((some selected, none), []) ∧
      selected = keys.filter (R.MatchString re) ∧
      selected.Sublist keys ∧
      (∀ k, k ∈ selected ↔ k ∈ keys ∧ R.MatchString re k = true) ∧
      ∀ k, selected.count k = if R.MatchString re k then keys.count k else 0 := by
  refine ⟨_, extractionOldFormat_ok R keys regex re h, rfl, List.filter_sublist _, ?_, ?_⟩
  · intro k; simp [List.mem_filter]
  · intro k
    by_cases hk : R.MatchString re k = true
    · simp [hk, List.count_filter]
    · simp only [hk, if_false, Bool.false_eq_true]
      exact List.count_eq_zero.2 (fun hmem => hk (List.mem_filter.1 hmem).2)

/-- Witness of C4: the pattern `^a/` selects `a/1.txt` and `a/2.txt` among
`a/1.txt`, `a/2.txt`, `b/1.txt`. -/
theorem extractionOldFormat_selects_witness :
    literalEngine.Compile (go "^a/") = .ok (true, go "a/") ∧
    ∃ selected, extractionOldFormat literalEngine scenarioKeys (go "^a/") =
        ((some selected, none), []) ∧
      selected = [go "a/1.txt", go "a/2.txt"] := by
  have hc : literalEngine.Compile (go "^a/") = .ok (true, go "a/") := rfl
  obtain ⟨selected, hrun, hsel, -⟩ :=
    extractionOldFormat_selects literalEngine scenarioKeys (go "^a/") (true, go "a/") hc
  refine ⟨hc, selected, hrun, ?_⟩
  rw [hsel]
  decide

/-- C8: once the report file is created, `outputTaggingObjects` issues one
write, whose bytes are the keys in selection order, each followed by one line
feed and nothing else, and it returns the error of that write; for no key at
all the bytes are empty and, the write succeeding, no error is returned. -/
theorem outputTaggingObjects_content {σ : Type} (w : World σ) (keys : List GoString)
    (fileName : GoString) (s s1 : σ) (hcreate : w.Create fileName s = (none, s1)) :
    ∃ log, outputTaggingObjects w (some keys) fileName s =
        (.ret (w.Write fileName (reportContent keys) s1).1.2,
          (w.Write fileName (reportContent keys) s1).2,
          [.Create fileName, .Write fileName (reportContent keys), log]) ∧
      log.isLog = true ∧
      writes [.Create fileName, .Write fileName (reportContent keys), log] =
        [reportContent keys] ∧
      reportContent [] = [] ∧
      (keys = [] → (w.Write fileName [] s1).1.2 = none →
        (outputTaggingObjects w (some keys) fileName s).1 = .ret none) := by
  have hrun : ∀ ks : List GoString, ∃ log, outputTaggingObjects w (some ks) fileName s =
        (.ret (w.Write fileName (reportContent ks) s1).1.2,
          (w.Write fileName (reportContent ks) s1).2,
          [.Create fileName, .Write fileName (reportContent ks), log]) ∧ log.isLog = true := by
    intro ks
    rcases hw : w.Write fileName (reportContent ks) s1 with ⟨⟨count, err⟩, s2⟩
    simp only [reportContent] at hw ⊢
    cases err with
    | none =>
      exact ⟨.slogInfo ("write" ++ toString count ++ "bytes"),
        by simp [outputTaggingObjects, hcreate, foldl_append_flatMap, hw], rfl⟩
    | some e =>
      exact ⟨.slogError "ファイル書き込みエラー",
        by simp [outputTaggingObjects, hcreate, foldl_append_flatMap, hw], rfl⟩
  obtain ⟨log, hlog, hislog⟩ := hrun keys
  refine ⟨log, hlog, hislog, ?_, rfl, ?_⟩
  · cases log <;> simp [writes, Event.isLog] at hislog ⊢
  · rintro rfl hok
    rw [hlog]
    simpa [reportContent] using hok

/-- Witness of C8: the report for `a/1.txt` and `a/2.txt` is the 16 bytes of
the two lines, and the report for no key is empty and gives no error. -/
theorem outputTaggingObjects_content_witness :
    (outputTaggingObjects (scenarioWorld false none) (some [go "a/1.txt", go "a/2.txt"])
        reportName 0).1 = .ret none ∧
    writes (outputTaggingObjects (scenarioWorld false none) (some [go "a/1.txt", go "a/2.txt"])
        reportName 0).2.2 = [go "a/1.txt\na/2.txt\n"] ∧
    (outputTaggingObjects (scenarioWorld false none) (some []) reportName 0).1 = .ret none ∧
    writes (outputTaggingObjects (scenarioWorld false none) (some []) reportName 0).2.2 = [[]] := by
  obtain ⟨log, hrun, -, hw, -, -⟩ :=
    outputTaggingObjects_content (scenarioWorld false none) [go "a/1.txt", go "a/2.txt"]
      reportName 0 0 rfl
  obtain ⟨log0, hrun0, -, hw0, -, hempty⟩ :=
    outputTaggingObjects_content (scenarioWorld false none) [] reportName 0 0 rfl
  refine ⟨by rw [hrun]; rfl, ?_, hempty rfl rfl, ?_⟩
  · rw [hrun, hw]; decide
  · rw [hrun0, hw0]; rfl

/-! ### The tagging loop -/

theorem putCalls_append (a b : Trace) : putCalls (a ++ b) = putCalls a ++ putCalls b := by
  simp [putCalls, List.filterMap_append]

theorem listCalls_append (a b : Trace) : listCalls (a ++ b) = listCalls a ++ listCalls b := by
  simp [listCalls, List.filterMap_append]

theorem taggedCount_append (a b : Trace) : taggedCount (a ++ b) = taggedCount a + taggedCount b := by
  simp [taggedCount, List.count_append]

theorem putCalls_tagged (bucket : GoString) (tags : List Tag) (keys : List GoString) :
    putCalls (keys.flatMap (taggedEvents bucket tags)) = keys.map (putInput bucket tags) := by
  induction keys with
  | nil => rfl
  | cons k ks ih =>
    rw [List.flatMap_cons, putCalls_append, ih]
    rfl

theorem taggedCount_tagged (bucket : GoString) (tags : List Tag) (keys : List GoString) :
    taggedCount (keys.flatMap (taggedEvents bucket tags)) = keys.length := by
  induction keys with
  | nil => rfl
  | cons k ks ih =>
    rw [List.flatMap_cons, taggedCount_append, ih]
    simp [taggedCount, taggedEvents, List.count_cons]
    omega

theorem s3PutTagging_ok {σ : Type} (w : World σ) (bucket key : GoString) (tags : List Tag)
    (s : σ) (h : (w.PutObjectTagging (putInput bucket tags key) s).1 = none) :
    s3PutTagging w bucket key tags s =
      (none, (w.PutObjectTagging (putInput bucket tags key) s).2,
        [.PutObjectTagging (putInput bucket tags key), .slogInfo "タグ付与完了"]) := by
  rcases hw : w.PutObjectTagging (putInput bucket tags key) s with ⟨r, s1⟩
  rw [hw] at h
  simp only at h
  subst h
  unfold putInput at hw
  simp [s3PutTagging, hw, putInput]

theorem s3PutTagging_error {σ : Type} (w : World σ) (bucket key : GoString) (tags : List Tag)
    (s s1 : σ) (err : GoError)
    (h : w.PutObjectTagging (putInput bucket tags key) s = (some err, s1)) :
    s3PutTagging w bucket key tags s =
      (some err, s1,
        [.PutObjectTagging (putInput bucket tags key), .slogError "PutObjectTaggingエラー"]) := by
  unfold putInput at h
  simp [s3PutTagging, h, putInput]

theorem tagLoop_all {σ : Type} (w : World σ) (bucket : GoString) (tags : List Tag)
    (keys : List GoString) :
    ∀ (s s' : σ), TagsAll w bucket tags s keys s' →
      tagLoop w bucket tags keys s = (true, s', keys.flatMap (taggedEvents bucket tags)) := by
  induction keys with
  | nil =>
    intro s s' h
    simp only [TagsAll] at h
    subst h
    rfl
  | cons k ks ih =>
    intro s s' h
    obtain ⟨hk, hrest⟩ := h
    simp [tagLoop, s3PutTagging_ok w bucket k tags s hk, ih _ _ hrest, taggedEvents]

theorem tagLoop_stops {σ : Type} (w : World σ) (bucket : GoString) (tags : List Tag)
    (pre : List GoString) (key : GoString) (post : List GoString) :
    ∀ (s s1 s2 : σ) (err : GoError), TagsAll w bucket tags s pre s1 →
      w.PutObjectTagging (putInput bucket tags key) s1 = (some err, s2) →
      tagLoop w bucket tags (pre ++ key :: post) s =
        (false, s2, pre.flatMap (taggedEvents bucket tags) ++ failedEvents bucket tags key) := by
  induction pre with
  | nil =>
    intro s s1 s2 err h hfail
    simp only [TagsAll] at h
    subst h
    simp [tagLoop, s3PutTagging_error w bucket key tags _ s2 err hfail, failedEvents]
  | cons k ks ih =>
    intro s s1 s2 err h hfail
    obtain ⟨hk, hrest⟩ := h
    simp [tagLoop, s3PutTagging_ok w bucket k tags s hk, ih _ _ _ _ hrest hfail, taggedEvents]

/-! ### The orchestration in `main` -/

theorem generateTags_cases (tags : GoString) :
    ((∃ e ∈ Split tags comma, ¬ WellFormed e) ∧
      generateTags tags =
        (([], some tagOptionError), [.slogError "Tagのオプション引数が無効です"])) ∨
    ((∀ e ∈ Split tags comma, WellFormed e) ∧ ∃ ts, generateTags tags = ((ts, none), [])) := by
  by_cases h : ∀ e ∈ Split tags comma, WellFormed e
  · right
    obtain ⟨ts, hts, -⟩ := generateTagsLoop_ok _ [] h
    exact ⟨h, ts, by simpa [generateTags] using hts⟩
  · left
    push_neg at h
    exact ⟨h, by simp [generateTags, generateTagsLoop_err _ [] h]⟩

/-- C9, as the code has it: when `generateTags` fails on the `-tags` value,
`main` returns with the backend untouched after nothing but log lines: no
listing call, no tagging call, no report file created or written.  So in every
run either the tag string parses into one tag per entry, each made of the two
components of its entry, which may be empty, or the run ends that way. -/
theorem main_tagError_aborts {σ : Type} (w : World σ) (R : RegexpLib) (fuel : Nat)
    (bucket regex tags : GoString) (s : σ) :
    ((generateTags tags).1.2 ≠ none →
      ∃ t, main w R fuel bucket regex tags s = some (.returned, s, t) ∧
        (∀ ev ∈ t, ev.isLog = true) ∧ listCalls t = [] ∧ putCalls t = [] ∧ writes t = []) ∧
    (((generateTags tags).1.2 = none ∧ (∀ e ∈ Split tags comma, WellFormed e) ∧
        List.Forall₂ TagOf (Split tags comma) (generateTags tags).1.1) ∨
      ∃ t, main w R fuel bucket regex tags s = some (.returned, s, t) ∧
        (∀ ev ∈ t, ev.isLog = true) ∧ listCalls t = [] ∧ putCalls t = [] ∧ writes t = []) := by
  have hfail : (generateTags tags).1.2 ≠ none →
      ∃ t, main w R fuel bucket regex tags s = some (.returned, s, t) ∧
        (∀ ev ∈ t, ev.isLog = true) ∧ listCalls t = [] ∧ putCalls t = [] ∧ writes t = [] := by
    intro hne
    rcases generateTags_cases tags with ⟨-, hg⟩ | ⟨-, ts, hg⟩
    · by_cases hflags : [bucket, regex, tags].any (fun d => d.length == 0) = true
      · refine ⟨[.slogError "コマンド引数エラー。bucket, regex, tagsの引数が必須です"], ?_, ?_, rfl, rfl, rfl⟩
        · simp only [main, hflags, if_true]
        · simp [Event.isLog]
      · refine ⟨[.slogError "Tagのオプション引数が無効です", .slogError "タグパースエラー"],
          ?_, ?_, rfl, rfl, rfl⟩
        · simp only [main, hflags, hg]
          simp
        · simp [Event.isLog]
    · rw [hg] at hne
      exact absurd rfl hne
  refine ⟨hfail, ?_⟩
  rcases generateTags_cases tags with ⟨-, hg⟩ | ⟨hall, ts, hg⟩
  · right
    exact hfail (by rw [hg]; simp)
  · left
    obtain ⟨ts2, hts2, hf⟩ := generateTagsLoop_ok _ [] hall
    have hts : generateTags tags = ((ts2, none), []) := by simpa [generateTags] using hts2
    rw [hts]
    exact ⟨rfl, hall, hf⟩

/-- Witness of C9: with the tag string `env=prod,team` the run ends after two
log lines and nothing else. -/
theorem main_tagError_aborts_witness :
    (generateTags (go "env=prod,team")).1.2 ≠ none ∧
    ∃ t, main (scenarioWorld false none) literalEngine 1 (go "bucket") (go "^a/")
        (go "env=prod,team") 0 = some (.returned, 0, t) ∧
      (∀ ev ∈ t, ev.isLog = true) ∧ listCalls t = [] ∧ putCalls t = [] ∧ writes t = [] :=
  ⟨by decide,
    (main_tagError_aborts (scenarioWorld false none) literalEngine 1 (go "bucket") (go "^a/")
      (go "env=prod,team") 0).1 (by decide)⟩

/-- C9 as stated fails: the tag string `=` parses into a tag whose key and
value are empty, not a valid Tag Set, and the run does not abort: it lists the
bucket and issues the tagging calls with that tag. -/
theorem main_runs_with_empty_tag :
    (generateTags (go "=")).1 = ([⟨[], []⟩], none) ∧
    ∃ t, main (scenarioWorld false none) literalEngine 1 (go "bucket") (go "^a/")
        (go "=") 0 = some (.returned, 2, t) ∧
      listCalls t = [listInput (go "bucket") none] ∧
      putCalls t = [go "a/1.txt", go "a/2.txt"].map (putInput (go "bucket") [⟨[], []⟩]) := by
  refine ⟨by decide, _, by rfl, by decide, by decide⟩

/-- C6 fails on the code: the report file cannot be created, `main` drops the
error `outputTaggingObjects` returns and issues the tagging calls for the two
selected keys all the same. -/
theorem main_tags_after_report_error :
    (outputTaggingObjects (scenarioWorld true none) (some [go "a/1.txt", go "a/2.txt"])
        reportName 0).1 = .ret (some ⟨"permission denied"⟩) ∧
    ∃ t, main (scenarioWorld true none) literalEngine 1 (go "bucket") (go "^a/")
        (go "env=prod,team=x") 0 = some (.returned, 2, t) ∧
      writes t = [] ∧
      putCalls t = [go "a/1.txt", go "a/2.txt"].map
        (putInput (go "bucket") [⟨go "env", go "prod"⟩, ⟨go "team", go "x"⟩]) := by
  refine ⟨by decide, _, by rfl, by decide, by decide⟩

/-- C7 as stated fails: the pattern `(` does not compile, yet `main` has
issued the listing call before it finds out, and goes on to create the report
file before it stops on a nil pointer. -/
theorem main_lists_before_compile :
    (literalEngine.Compile (go "(")).toOption = none ∧
    ∃ t, main (scenarioWorld false none) literalEngine 1 (go "bucket") (go "(")
        (go "env=prod,team=x") 0 = some (.nilDeref, 0, t) ∧
      listCalls t = [listInput (go "bucket") none] ∧
      Event.Create reportName ∈ t := by
  refine ⟨by rfl, _, by rfl, by decide, by decide⟩

theorem flags_present (bucket regex tags : GoString) (hb : bucket ≠ []) (hr : regex ≠ [])
    (ht : tags ≠ []) : [bucket, regex, tags].any (fun d => d.length == 0) = false := by
  simp [hb, hr, ht]

theorem s3ListObjects_putCalls {σ : Type} (w : World σ) (bucket : GoString)
    (token : Option GoString) (s : σ) : putCalls (s3ListObjects w bucket token s).2.2 = [] := by
  simp only [s3ListObjects]
  rcases w.ListObjectsV2 { Bucket := bucket, MaxKeys := 1000, ContinuationToken := token } s
    with ⟨_ | _, s1⟩ <;> rfl

theorem listLoop_putCalls {σ : Type} (w : World σ) (bucket : GoString) :
    ∀ (fuel : Nat) (token : Option GoString) (acc : List GoString) (s : σ) (r : ListExit)
      (s' : σ) (t : Trace), listLoop w bucket fuel token acc s = some (r, s', t) →
      putCalls t = [] := by
  intro fuel
  induction fuel with
  | zero => intro token acc s r s' t h; simp [listLoop] at h
  | succ fuel ih =>
    intro token acc s r s' t h
    have h1 := s3ListObjects_putCalls w bucket token s
    rcases h3 : s3ListObjects w bucket token s with ⟨⟨resp, err⟩, s1, t1⟩
    rw [h3] at h1
    simp only at h1
    unfold listLoop at h
    rw [h3] at h
    cases err with
    | some e =>
      simp only [Option.some.injEq, Prod.mk.injEq] at h
      obtain ⟨-, -, rfl⟩ := h
      rw [putCalls_append, h1]; rfl
    | none =>
      cases resp with
      | none =>
        simp only [Option.some.injEq, Prod.mk.injEq] at h
        obtain ⟨-, -, rfl⟩ := h
        exact h1
      | some resp =>
        simp only at h
        cases hn : resp.NextToken with
        | none =>
          rw [hn] at h
          simp only [Option.some.injEq, Prod.mk.injEq] at h
          obtain ⟨-, -, rfl⟩ := h
          exact h1
        | some c =>
          rw [hn] at h
          simp only at h
          rcases hrec : listLoop w bucket fuel (some c) (acc ++ resp.Keys) s1 with
            _ | ⟨r2, s2, t2⟩
          · rw [hrec] at h; simp at h
          · rw [hrec] at h
            simp only [Option.some.injEq, Prod.mk.injEq] at h
            obtain ⟨-, -, rfl⟩ := h
            rw [putCalls_append, h1, ih _ _ _ _ _ _ hrec]; rfl

theorem outputTaggingObjects_nil {σ : Type} (w : World σ) (fileName : GoString) (s : σ) :
    ∃ r s' t, outputTaggingObjects w none fileName s = (r, s', t) ∧
      putCalls t = [] ∧ listCalls t = [] ∧ (r = .nilDeref ∨ ∃ err, r = .ret (some err)) := by
  rcases hc : w.Create fileName s with ⟨_ | err, s1⟩
  · exact ⟨.nilDeref, s1, [.Create fileName], by simp only [outputTaggingObjects, hc],
      rfl, rfl, Or.inl rfl⟩
  · exact ⟨.ret (some err), s1, [.Create fileName, .slogError "ファイル作成エラー"],
      by simp only [outputTaggingObjects, hc], rfl, rfl, Or.inr ⟨err, rfl⟩⟩

theorem putCalls_cons (ev : Event) (t : Trace) :
    putCalls (ev :: t) =
      (match ev with
        | .PutObjectTagging input => [input]
        | _ => []) ++ putCalls t := by
  cases ev <;> rfl

theorem listCalls_cons (ev : Event) (t : Trace) :
    listCalls (ev :: t) =
      (match ev with
        | .ListObjectsV2 input => [input]
        | _ => []) ++ listCalls t := by
  cases ev <;> rfl

theorem putCalls_nil : putCalls [] = [] := rfl

theorem listCalls_nil : listCalls [] = [] := rfl

/-- C7, as the code has it: for a pattern that does not compile,
`extractionOldFormat` returns the pattern error and no key, whatever the keys,
and logs the error; `main` issues no tagging call; but `main` compiles the
pattern only after the listing loop: in a run that gets through the flags, the
tag string and the configuration and whose listing serves `pages`, every
listing call has been issued when the pattern error is logged. -/
theorem main_badPattern {σ : Type} (w : World σ) (R : RegexpLib) (fuel : Nat)
    (bucket regex tags : GoString) (s : σ) (err : GoError)
    (hre : R.Compile regex = .error err) :
    (∀ keys, extractionOldFormat R keys regex =
      ((none, some err), [.slogError "正規表現コンパイルエラー"])) ∧
    (∀ e s' t, main w R fuel bucket regex tags s = some (e, s', t) → putCalls t = []) ∧
    (∀ pages s1 s2, bucket ≠ [] → regex ≠ [] → tags ≠ [] → (generateTags tags).1.2 = none →
      w.LoadDefaultConfig s = (none, s1) → ServesPages w bucket s1 none pages s2 →
      pages.length ≤ fuel →
      ∃ e s' pre post, main w R fuel bucket regex tags s =
          some (e, s', pre ++ .slogError "正規表現コンパイルエラー" :: post) ∧
        listCalls pre = (cursors none pages).map (listInput bucket) ∧
        listCalls post = []) := by
  refine ⟨fun keys => extractionOldFormat_error R keys regex err hre, ?_, ?_⟩
  · intro e s' t hmain
    by_cases hflags : [bucket, regex, tags].any (fun d => d.length == 0) = true
    · simp only [main, hflags, if_true, Option.some.injEq, Prod.mk.injEq] at hmain
      obtain ⟨-, -, rfl⟩ := hmain
      rfl
    · rcases generateTags_cases tags with ⟨-, hg⟩ | ⟨-, ts, hg⟩
      · simp only [main, hflags, hg] at hmain
        simp only [Bool.false_eq_true, if_false, List.cons_append, List.nil_append,
          Option.some.injEq, Prod.mk.injEq] at hmain
        obtain ⟨-, -, rfl⟩ := hmain
        rfl
      · rcases hc : w.LoadDefaultConfig s with ⟨_ | cerr, s1⟩
        · rcases hl : listLoop w bucket fuel none [] s1 with _ | ⟨r, s2, t2⟩
          · simp [main, hflags, hg, hc, hl] at hmain
          · have hp := listLoop_putCalls w bucket fuel none [] s1 r s2 t2 hl
            cases r with
            | broke all =>
              obtain ⟨r5, s5, t5, ho, hp5, -, hr5⟩ := outputTaggingObjects_nil w reportName s2
              simp only [main, hflags, hg, hc, hl, extractionOldFormat_error R all regex err hre,
                ho] at hmain
              rcases hr5 with rfl | ⟨e5, rfl⟩ <;>
              · simp only [Bool.false_eq_true, if_false, List.nil_append,
                  Option.some.injEq, Prod.mk.injEq] at hmain
                obtain ⟨-, -, rfl⟩ := hmain
                simp [putCalls_append, putCalls_cons, putCalls_nil, hp, hp5]
            | returned =>
              simp only [main, hflags, hg, hc, hl, Bool.false_eq_true, if_false,
                List.nil_append, Option.some.injEq, Prod.mk.injEq] at hmain
              obtain ⟨-, -, rfl⟩ := hmain
              simp [putCalls_cons, hp]
            | nilDeref =>
              simp only [main, hflags, hg, hc, hl, Bool.false_eq_true, if_false,
                List.nil_append, Option.some.injEq, Prod.mk.injEq] at hmain
              obtain ⟨-, -, rfl⟩ := hmain
              simp [putCalls_cons, hp]
        · simp only [main, hflags, hg, hc, Bool.false_eq_true, if_false,
            List.nil_append, Option.some.injEq, Prod.mk.injEq] at hmain
          obtain ⟨-, -, rfl⟩ := hmain
          rfl
  · intro pages s1 s2 hb hr ht hparse hcfg hserves hfuel
    have hflags := flags_present bucket regex tags hb hr ht
    rcases generateTags_cases tags with ⟨-, hg⟩ | ⟨-, ts, hg⟩
    · rw [hg] at hparse; simp at hparse
    · have hl := listLoop_serves w bucket pages fuel none [] s1 s2 hserves hfuel
      obtain ⟨r5, s5, t5, ho, -, hl5, hr5⟩ := outputTaggingObjects_nil w reportName s2
      refine ⟨.nilDeref, s5,
        .LoadDefaultConfig :: (cursors none pages).map
            (fun c => Event.ListObjectsV2 (listInput bucket c)) ++
          [.slogInfo "S3オブジェクト一覧の取得終了"], t5, ?_, ?_, hl5⟩
      · simp only [main, hflags, hg, hcfg, hl, extractionOldFormat_error R _ regex err hre, ho]
        rcases hr5 with rfl | ⟨e5, rfl⟩ <;> simp
      · simp [listCalls_cons, listCalls_append, listCalls_map, listCalls_nil]

/-- Witness of C7: with the pattern `(` and the one-page backend the listing
call is issued, then the pattern error is logged, and no tagging call follows. -/
theorem main_badPattern_witness :
    literalEngine.Compile (go "(") = .error ⟨"error parsing regexp: missing closing )"⟩ ∧
    (∀ e s' t, main (scenarioWorld false none) literalEngine 1 (go "bucket") (go "(")
      (go "env=prod,team=x") 0 = some (e, s', t) → putCalls t = []) ∧
    extractionOldFormat literalEngine scenarioKeys (go "(") =
      ((none, some ⟨"error parsing regexp: missing closing )"⟩),
        [.slogError "正規表現コンパイルエラー"]) ∧
    ∃ e s' pre post, main (scenarioWorld false none) literalEngine 1 (go "bucket") (go "(")
        (go "env=prod,team=x") 0 =
          some (e, s', pre ++ .slogError "正規表現コンパイルエラー" :: post) ∧
      listCalls pre = [listInput (go "bucket") none] ∧ listCalls post = [] :=
  ⟨rfl,
    (main_badPattern (scenarioWorld false none) literalEngine 1 (go "bucket") (go "(")
      (go "env=prod,team=x") 0 ⟨"error parsing regexp: missing closing )"⟩ rfl).2.1,
    (main_badPattern (scenarioWorld false none) literalEngine 1 (go "bucket") (go "(")
      (go "env=prod,team=x") 0 ⟨"error parsing regexp: missing closing )"⟩ rfl).1 scenarioKeys,
    (main_badPattern (scenarioWorld false none) literalEngine 1 (go "bucket") (go "(")
      (go "env=prod,team=x") 0 ⟨"error parsing regexp: missing closing )"⟩ rfl).2.2
      [{ Contents := scenarioKeys.map Object.mk, NextContinuationToken := none }] 0 0
      (by decide) (by decide) (by decide) (by decide) rfl ⟨rfl, rfl⟩ (by decide)⟩

theorem extractionOldFormat_putCalls (R : RegexpLib) (keys : List GoString) (regex : GoString) :
    putCalls (extractionOldFormat R keys regex).2 = [] := by
  rcases hcmp : R.Compile regex with cerr | re
  · rw [extractionOldFormat_error R keys regex cerr hcmp]; rfl
  · rw [extractionOldFormat_ok R keys regex re hcmp]; rfl

theorem outputTaggingObjects_putCalls {σ : Type} (w : World σ) (objs : Option (List GoString))
    (fileName : GoString) (s : σ) :
    putCalls (outputTaggingObjects w objs fileName s).2.2 = [] := by
  simp only [outputTaggingObjects]
  rcases w.Create fileName s with ⟨_ | err, s1⟩
  · cases objs with
    | none => rfl
    | some keys =>
      simp only
      rcases w.Write fileName (List.foldl (fun acc d => acc ++ (d ++ newline)) [] keys) s1
        with ⟨⟨count, _ | werr⟩, s2⟩ <;> rfl
  · rfl

theorem tagLoop_putCalls {σ : Type} (w : World σ) (bucket : GoString) (tags : List Tag)
    (keys : List GoString) :
    ∀ (s : σ), ∀ input ∈ putCalls (tagLoop w bucket tags keys s).2.2,
      input.Bucket = bucket ∧ input.TagSet = tags ∧ input.Key ∈ keys := by
  induction keys with
  | nil => intro s input h; simp [tagLoop, putCalls_nil] at h
  | cons k ks ih =>
    intro s input h
    rcases hw : w.PutObjectTagging (putInput bucket tags k) s with ⟨_ | err, s1⟩
    · have hk : (w.PutObjectTagging (putInput bucket tags k) s).1 = none := by rw [hw]
      have hrec := ih s1 input
      rcases hr : tagLoop w bucket tags ks s1 with ⟨r, s2, t2⟩
      rw [hr] at hrec
      simp only [tagLoop, s3PutTagging_ok w bucket k tags s hk, hw, hr, putCalls_append,
        putCalls_cons, putCalls_nil, List.mem_append, List.mem_cons, List.append_nil,
        List.nil_append, List.not_mem_nil, or_false, false_or, List.cons_append] at h
      rcases h with rfl | h
      · exact ⟨rfl, rfl, List.mem_cons_self _ _⟩
      · obtain ⟨h1, h2, h3⟩ := hrec h
        exact ⟨h1, h2, List.mem_cons_of_mem _ h3⟩
    · simp only [tagLoop, s3PutTagging_error w bucket k tags s s1 err hw, putCalls_append,
        putCalls_cons, putCalls_nil, List.mem_append, List.mem_cons, List.append_nil,
        List.nil_append, List.not_mem_nil, or_false, false_or, List.cons_append] at h
      subst h
      exact ⟨rfl, rfl, List.mem_cons_self _ _⟩

theorem main_putCalls {σ : Type} (w : World σ) (R : RegexpLib) (fuel : Nat)
    (bucket regex tags : GoString) (s : σ) (e : Exit) (s' : σ) (t : Trace)
    (hmain : main w R fuel bucket regex tags s = some (e, s', t)) :
    ∀ input ∈ putCalls t, input.Bucket = bucket ∧ input.TagSet = (generateTags tags).1.1 := by
  by_cases hflags : [bucket, regex, tags].any (fun d => d.length == 0) = true
  · simp only [main, hflags, if_true, Option.some.injEq, Prod.mk.injEq] at hmain
    obtain ⟨-, -, rfl⟩ := hmain
    intro input h
    simp [putCalls_cons, putCalls_nil] at h
  · rcases generateTags_cases tags with ⟨-, hg⟩ | ⟨-, ts, hg⟩
    · simp only [main, hflags, hg] at hmain
      simp only [Bool.false_eq_true, if_false, List.cons_append, List.nil_append,
        Option.some.injEq, Prod.mk.injEq] at hmain
      obtain ⟨-, -, rfl⟩ := hmain
      intro input h
      simp [putCalls_cons, putCalls_nil] at h
    · rcases hc : w.LoadDefaultConfig s with ⟨_ | cerr, s1⟩
      · rcases hl : listLoop w bucket fuel none [] s1 with _ | ⟨r, s2, t2⟩
        · simp [main, hflags, hg, hc, hl] at hmain
        · have hp := listLoop_putCalls w bucket fuel none [] s1 r s2 t2 hl
          cases r with
          | broke all =>
            rcases hx : extractionOldFormat R all regex with ⟨⟨objs, xerr⟩, t4⟩
            have hp4 : putCalls t4 = [] := by
              have h4 := extractionOldFormat_putCalls R all regex
              rw [hx] at h4
              exact h4
            have hp5 := outputTaggingObjects_putCalls w objs reportName s2
            rcases ho : outputTaggingObjects w objs reportName s2 with ⟨r5, s5, t5⟩
            rw [ho] at hp5
            simp only at hp5
            simp only [main, hflags, hg, hc, hl, hx, ho, Bool.false_eq_true, if_false,
              List.nil_append] at hmain
            cases r5 with
            | nilDeref =>
              simp only [Option.some.injEq, Prod.mk.injEq] at hmain
              obtain ⟨-, -, rfl⟩ := hmain
              intro input h
              simp [putCalls_append, putCalls_cons, putCalls_nil, hp, hp4, hp5] at h
            | ret r =>
              cases objs with
              | none =>
                simp only [Option.some.injEq, Prod.mk.injEq] at hmain
                obtain ⟨-, -, rfl⟩ := hmain
                intro input h
                simp [putCalls_append, putCalls_cons, putCalls_nil, hp, hp4, hp5] at h
              | some keys =>
                have hp6 := tagLoop_putCalls w bucket ts keys s5
                rcases h6 : tagLoop w bucket ts keys s5 with ⟨done, s6, t6⟩
                rw [h6] at hp6
                simp only [h6] at hmain
                cases done <;>
                · simp only [Option.some.injEq, Prod.mk.injEq] at hmain
                  obtain ⟨-, -, rfl⟩ := hmain
                  intro input h
                  simp only [putCalls_append, putCalls_cons, putCalls_nil, hp, hp4, hp5,
                    List.nil_append, List.append_nil, List.cons_append] at h
                  obtain ⟨h1, h2, -⟩ := hp6 input h
                  exact ⟨h1, by rw [hg]; exact h2⟩
          | returned =>
            simp only [main, hflags, hg, hc, hl, Bool.false_eq_true, if_false,
              List.nil_append, Option.some.injEq, Prod.mk.injEq] at hmain
            obtain ⟨-, -, rfl⟩ := hmain
            intro input h
            simp [putCalls_cons, hp] at h
          | nilDeref =>
            simp only [main, hflags, hg, hc, hl, Bool.false_eq_true, if_false,
              List.nil_append, Option.some.injEq, Prod.mk.injEq] at hmain
            obtain ⟨-, -, rfl⟩ := hmain
            intro input h
            simp [putCalls_cons, hp] at h
      · simp only [main, hflags, hg, hc, Bool.false_eq_true, if_false,
          List.nil_append, Option.some.injEq, Prod.mk.injEq] at hmain
        obtain ⟨-, -, rfl⟩ := hmain
        intro input h
        simp [putCalls_cons, putCalls_nil] at h

theorem taggedCount_cons (ev : Event) (t : Trace) :
    taggedCount (ev :: t) =
      (if ev = .slogInfo "タグ付与完了" then 1 else 0) + taggedCount t := by
  simp only [taggedCount, List.count_cons, beq_iff_eq]
  omega

theorem taggedCount_nil : taggedCount [] = 0 := rfl

theorem writeMessage_ne (count : Nat) :
    "write" ++ toString count ++ "bytes" ≠ "タグ付与完了" := by
  intro h
  have hd := congrArg String.data h
  rw [String.data_append, String.data_append] at hd
  have hw : ("write" : String).data = ['w', 'r', 'i', 't', 'e'] := rfl
  have ht : ("タグ付与完了" : String).data = ['タ', 'グ', '付', '与', '完', '了'] := rfl
  rw [hw, ht] at hd
  simp at hd

theorem outputTaggingObjects_some {σ : Type} (w : World σ) (keys : List GoString)
    (fileName : GoString) (s : σ) :
    ∃ r s' t, outputTaggingObjects w (some keys) fileName s = (.ret r, s', t) ∧
      putCalls t = [] ∧ taggedCount t = 0 := by
  rcases hc : w.Create fileName s with ⟨_ | err, s1⟩
  · rcases hw : w.Write fileName (List.foldl (fun acc d => acc ++ (d ++ newline)) [] keys) s1
      with ⟨⟨count, _ | werr⟩, s2⟩
    · refine ⟨none, s2,
        [.Create fileName,
          .Write fileName (List.foldl (fun acc d => acc ++ (d ++ newline)) [] keys),
          .slogInfo ("write" ++ toString count ++ "bytes")],
        by simp only [outputTaggingObjects, hc, hw], rfl, ?_⟩
      simp [taggedCount_cons, taggedCount_nil, writeMessage_ne]
    · exact ⟨some werr, s2,
        [.Create fileName,
          .Write fileName (List.foldl (fun acc d => acc ++ (d ++ newline)) [] keys),
          .slogError "ファイル書き込みエラー"],
        by simp only [outputTaggingObjects, hc, hw], rfl, rfl⟩
  · exact ⟨some err, s1, [.Create fileName, .slogError "ファイル作成エラー"],
      by simp only [outputTaggingObjects, hc], rfl, rfl⟩

theorem putCalls_listEvents {α : Type} (f : α → ListObjectsV2Input) (l : List α) :
    putCalls (l.map (fun c => Event.ListObjectsV2 (f c))) = [] := by
  induction l with
  | nil => rfl
  | cons a l ih => rw [List.map_cons, putCalls_cons, ih]; rfl

theorem taggedCount_listEvents {α : Type} (f : α → ListObjectsV2Input) (l : List α) :
    taggedCount (l.map (fun c => Event.ListObjectsV2 (f c))) = 0 := by
  induction l with
  | nil => rfl
  | cons a l ih => rw [List.map_cons, taggedCount_cons, ih]; simp

theorem main_reaches_tagLoop {σ : Type} (w : World σ) (R : RegexpLib) (fuel : Nat)
    (bucket regex tags : GoString) (s : σ) (tagSet : List Tag)
    (pages : List ListObjectsV2Output) (s1 s2 : σ) (selected : List GoString)
    (hb : bucket ≠ []) (hr : regex ≠ []) (ht : tags ≠ [])
    (hparse : (generateTags tags).1 = (tagSet, none))
    (hcfg : w.LoadDefaultConfig s = (none, s1))
    (hserves : ServesPages w bucket s1 none pages s2) (hfuel : pages.length ≤ fuel)
    (hsel : (extractionOldFormat R (pages.flatMap pageKeys) regex).1 = (some selected, none)) :
    ∃ t0, putCalls t0 = [] ∧ taggedCount t0 = 0 ∧
      main w R fuel bucket regex tags s =
        some (.returned,
          (tagLoop w bucket tagSet selected
            (outputTaggingObjects w (some selected) reportName s2).2.1).2.1,
          t0 ++
            (tagLoop w bucket tagSet selected
              (outputTaggingObjects w (some selected) reportName s2).2.1).2.2 ++
            (if (tagLoop w bucket tagSet selected
                (outputTaggingObjects w (some selected) reportName s2).2.1).1 = true
              then [.slogInfo "タグ付け完了しました"] else [])) := by
  have hflags := flags_present bucket regex tags hb hr ht
  have hg : generateTags tags = ((tagSet, none), []) := by
    rcases generateTags_cases tags with ⟨-, hg⟩ | ⟨-, ts, hg⟩
    · rw [hg] at hparse; simp at hparse
    · rw [hg] at hparse
      simp only [Prod.mk.injEq, and_true] at hparse
      rw [hg, hparse]
  have hl := listLoop_serves w bucket pages fuel none [] s1 s2 hserves hfuel
  rw [List.nil_append] at hl
  have hx : extractionOldFormat R (pages.flatMap pageKeys) regex = ((some selected, none), []) := by
    rcases hcmp : R.Compile regex with cerr | re
    · rw [extractionOldFormat_error R _ regex cerr hcmp] at hsel
      simp at hsel
    · rw [extractionOldFormat_ok R _ regex re hcmp] at hsel ⊢
      simp only [Prod.mk.injEq, Option.some.injEq, and_true] at hsel
      rw [hsel]
  obtain ⟨r5, s5, t5, ho, hp5, hc5⟩ := outputTaggingObjects_some w selected reportName s2
  rw [ho]
  rcases h6 : tagLoop w bucket tagSet selected s5 with ⟨done, s6, t6⟩
  refine ⟨.LoadDefaultConfig ::
      (cursors none pages).map (fun c => Event.ListObjectsV2 (listInput bucket c)) ++
      [.slogInfo "S3オブジェクト一覧の取得終了"] ++ t5, ?_, ?_, ?_⟩
  · simp [putCalls_append, putCalls_cons, putCalls_nil, putCalls_listEvents, hp5]
  · simp [taggedCount_append, taggedCount_cons, taggedCount_nil, taggedCount_listEvents, hc5]
  · simp only [main, hflags, hg, hcfg, hl, hx, ho, h6]
    cases done <;> simp

/-- C5: in a run of `main` that gets to its tagging loop with the parsed tag
set `tagSet` and the selected keys `selected`: when the tagging calls for the
keys `pre` succeed and the call for the next key fails, `main` returns having
issued the tagging calls for the first `pre.length + 1` selected keys, in
order and once each, each with `tagSet`, none for the keys after, and
`pre.length` objects are tagged; when every call succeeds `main` issues one
call per selected key, in selection order, each with `tagSet`. -/
theorem main_tagLoop_failFast {σ : Type} (w : World σ) (R : RegexpLib) (fuel : Nat)
    (bucket regex tags : GoString) (s : σ) (tagSet : List Tag)
    (pages : List ListObjectsV2Output) (s1 s2 : σ) (selected : List GoString)
    (hb : bucket ≠ []) (hr : regex ≠ []) (ht : tags ≠ [])
    (hparse : (generateTags tags).1 = (tagSet, none))
    (hcfg : w.LoadDefaultConfig s = (none, s1))
    (hserves : ServesPages w bucket s1 none pages s2) (hfuel : pages.length ≤ fuel)
    (hsel : (extractionOldFormat R (pages.flatMap pageKeys) regex).1 = (some selected, none)) :
    (∀ (pre : List GoString) (key : GoString) (post : List GoString) (s4 s5 : σ) (err : GoError),
      selected = pre ++ key :: post →
      TagsAll w bucket tagSet (outputTaggingObjects w (some selected) reportName s2).2.1 pre s4 →
      w.PutObjectTagging (putInput bucket tagSet key) s4 = (some err, s5) →
      ∃ t, main w R fuel bucket regex tags s = some (.returned, s5, t) ∧
        putCalls t = (selected.take (pre.length + 1)).map (putInput bucket tagSet) ∧
        taggedCount t = pre.length) ∧
    (∀ s', TagsAll w bucket tagSet (outputTaggingObjects w (some selected) reportName s2).2.1
        selected s' →
      ∃ t, main w R fuel bucket regex tags s = some (.returned, s', t) ∧
        putCalls t = selected.map (putInput bucket tagSet) ∧
        taggedCount t = selected.length) := by
  obtain ⟨t0, hp0, hc0, hmain⟩ := main_reaches_tagLoop w R fuel bucket regex tags s tagSet pages
    s1 s2 selected hb hr ht hparse hcfg hserves hfuel hsel
  constructor
  · intro pre key post s4 s5 err hkeys hpre hfail
    have h6 := tagLoop_stops w bucket tagSet pre key post _ s4 s5 err hpre hfail
    rw [← hkeys] at h6
    rw [h6] at hmain
    refine ⟨_, hmain, ?_, ?_⟩
    · simp only [putCalls_append, hp0, putCalls_tagged, Bool.false_eq_true, if_false,
        putCalls_nil, List.append_nil, List.nil_append]
      rw [hkeys]
      simp [List.take_append_eq_append_take, failedEvents, putCalls_cons, putCalls_nil]
    · simp only [taggedCount_append, hc0, taggedCount_tagged, Bool.false_eq_true, if_false,
        taggedCount_nil]
      simp [taggedCount_cons, taggedCount_nil, failedEvents]
  · intro s' hall
    have h6 := tagLoop_all w bucket tagSet selected _ s' hall
    rw [h6] at hmain
    refine ⟨_, hmain, ?_, ?_⟩
    · simp [putCalls_append, hp0, putCalls_tagged, putCalls_cons, putCalls_nil]
    · simp [taggedCount_append, hc0, taggedCount_tagged, taggedCount_cons, taggedCount_nil]

/-- Witness of C5: the pattern `/` selects the three keys; when the second
tagging call fails `main` issues the calls for the first two keys only and one
object is tagged; with no failure the three keys get one call each. -/
theorem main_tagLoop_failFast_witness :
    (∃ t, main (scenarioWorld false (some 1)) literalEngine 1 (go "bucket") (go "/")
        (go "env=prod,team=x") 0 = some (.returned, 2, t) ∧
      putCalls t = [go "a/1.txt", go "a/2.txt"].map
        (putInput (go "bucket") [⟨go "env", go "prod"⟩, ⟨go "team", go "x"⟩]) ∧
      taggedCount t = 1) ∧
    (∃ t, main (scenarioWorld false none) literalEngine 1 (go "bucket") (go "/")
        (go "env=prod,team=x") 0 = some (.returned, 3, t) ∧
      putCalls t = scenarioKeys.map
        (putInput (go "bucket") [⟨go "env", go "prod"⟩, ⟨go "team", go "x"⟩]) ∧
      taggedCount t = 3) :=
  ⟨(main_tagLoop_failFast (scenarioWorld false (some 1)) literalEngine 1 (go "bucket") (go "/")
      (go "env=prod,team=x") 0 [⟨go "env", go "prod"⟩, ⟨go "team", go "x"⟩]
      [{ Contents := scenarioKeys.map Object.mk, NextContinuationToken := none }] 0 0
      scenarioKeys (by decide) (by decide) (by decide) (by decide) rfl ⟨rfl, rfl⟩ (by decide)
      (by decide)).1 [go "a/1.txt"] (go "a/2.txt") [go "b/1.txt"] 1 2 ⟨"AccessDenied"⟩
      rfl ⟨rfl, rfl⟩ rfl,
    (main_tagLoop_failFast (scenarioWorld false none) literalEngine 1 (go "bucket") (go "/")
      (go "env=prod,team=x") 0 [⟨go "env", go "prod"⟩, ⟨go "team", go "x"⟩]
      [{ Contents := scenarioKeys.map Object.mk, NextContinuationToken := none }] 0 0
      scenarioKeys (by decide) (by decide) (by decide) (by decide) rfl ⟨rfl, rfl⟩ (by decide)
      (by decide)).2 3 ⟨rfl, rfl, rfl, rfl⟩⟩

end S3Tagging
